import Mathlib

/-!
Shallow embedding of the Simple Notes API backend
(`src/notes_backend/src/api/main.py`): a FastAPI + SQLite CRUD service for
a single `notes` table.

Modelling decisions:
* A SQLite row of the `notes` table is a `Note`; timestamps
  (`datetime.utcnow().replace(microsecond=0).isoformat()`, stored as
  ISO-8601 TEXT at second precision) are modelled as `Nat` seconds: for the
  fixed-width ISO format the lexicographic TEXT order used by
  `ORDER BY updated_at DESC` agrees with chronological order.
* The database state is `DB`: the list of rows in insertion (rowid) order
  plus `seq`, the AUTOINCREMENT sequence value (largest rowid ever
  assigned); SQLite assigns `seq + 1` to the next insert and never lowers
  `seq`, even when rows are deleted.
* `SELECT * FROM notes WHERE id = ?` with `fetchone()` is `findById`
  (first match); `UPDATE ... WHERE id = ?` maps over all matching rows;
  `DELETE ... WHERE id = ?` filters them out.
* Pydantic request models: `NoteCreate` (title required with
  `min_length=1, max_length=200`, content required) and `NoteUpdate`
  (both fields `Optional`, title constrained when a string is given).
  A JSON body field is a `Jfield` (absent, explicit null, or a string);
  FastAPI validates the body against the pydantic model before the
  handler runs and answers a failed validation with HTTP 422, which the
  parse functions model.
* Handler errors (`HTTPException(status_code, detail)`) are `HTTPError`
  values returned through `Except`.
-/

/-- A stored row of the `notes` table / the external Note representation.
All columns are `NOT NULL`, hence plain (non-optional) fields. -/
structure Note where
  id : Nat
  title : String
  content : String
  created_at : Nat
  updated_at : Nat
deriving DecidableEq

/-- The SQLite database state: rows in rowid order and the AUTOINCREMENT
sequence value (largest id ever assigned). -/
structure DB where
  rows : List Note
  seq : Nat
deriving DecidableEq

/-- A freshly initialised database (`_init_db` creates an empty table). -/
def emptyDB : DB := ⟨[], 0⟩

/-- Invariant maintained by AUTOINCREMENT: every stored id is at most the
sequence value. -/
def SeqInv (db : DB) : Prop := ∀ r ∈ db.rows, r.id ≤ db.seq

/-- An `HTTPException(status_code, detail)` raised by a handler, or the
framework-level response to a validation failure (status 422). -/
structure HTTPError where
  status : Nat
  detail : String
deriving DecidableEq

/-- One optional field of a JSON request body: absent from the object,
an explicit `null`, or a JSON string. -/
inductive Jfield where
  | omitted : Jfield
  | null : Jfield
  | str : String → Jfield
deriving DecidableEq

/-- Raw JSON body of `POST /notes` before pydantic validation. -/
structure RawCreate where
  title : Jfield
  content : Jfield
deriving DecidableEq

/-- Raw JSON body of `PUT /notes/{id}` before pydantic validation. -/
structure RawUpdate where
  title : Jfield
  content : Jfield
deriving DecidableEq

/-- Validated payload of `POST /notes` (pydantic model `NoteCreate`). -/
structure NoteCreate where
  title : String
  content : String
deriving DecidableEq

/-- Validated payload of `PUT /notes/{id}` (pydantic model `NoteUpdate`):
`None` both for an omitted field and for an explicit JSON null. -/
structure NoteUpdate where
  title : Option String
  content : Option String
deriving DecidableEq

/-- The pydantic title constraint `min_length=1, max_length=200`. -/
def validTitle (s : String) : Bool := 1 ≤ s.length && s.length ≤ 200

/-- Pydantic validation of `NoteCreate.title`: required, must be a string,
length between 1 and 200; a failure is answered with HTTP 422. -/
def parseCreTitle : Jfield → Except HTTPError String
  | Jfield.omitted => Except.error ⟨422, "validation error"⟩
  | Jfield.null => Except.error ⟨422, "validation error"⟩
  | Jfield.str s =>
      if validTitle s then Except.ok s else Except.error ⟨422, "validation error"⟩

/-- Pydantic validation of `NoteCreate.content`: required, must be a
string (no constraint on its value). -/
def parseCreContent : Jfield → Except HTTPError String
  | Jfield.omitted => Except.error ⟨422, "validation error"⟩
  | Jfield.null => Except.error ⟨422, "validation error"⟩
  | Jfield.str s => Except.ok s

/-- Pydantic validation of the whole `POST /notes` body. -/
def parseNoteCreate (raw : RawCreate) : Except HTTPError NoteCreate :=
  match parseCreTitle raw.title with
  | Except.error e => Except.error e
  | Except.ok t =>
      match parseCreContent raw.content with
      | Except.error e => Except.error e
      | Except.ok c => Except.ok ⟨t, c⟩

/-- Pydantic validation of `NoteUpdate.title`: `Optional[str]` with
`min_length=1, max_length=200` — absent and explicit null both become
`None`; a given string must satisfy the length constraint. -/
def parseUpdTitle : Jfield → Except HTTPError (Option String)
  | Jfield.omitted => Except.ok none
  | Jfield.null => Except.ok none
  | Jfield.str s =>
      if validTitle s then Except.ok (some s) else Except.error ⟨422, "validation error"⟩

/-- Pydantic validation of `NoteUpdate.content`: `Optional[str]`,
unconstrained — absent and explicit null both become `None`. -/
def parseUpdContent : Jfield → Except HTTPError (Option String)
  | Jfield.omitted => Except.ok none
  | Jfield.null => Except.ok none
  | Jfield.str s => Except.ok (some s)

/-- Pydantic validation of the whole `PUT /notes/{id}` body. -/
def parseNoteUpdate (raw : RawUpdate) : Except HTTPError NoteUpdate :=
  match parseUpdTitle raw.title with
  | Except.error e => Except.error e
  | Except.ok t =>
      match parseUpdContent raw.content with
      | Except.error e => Except.error e
      | Except.ok c => Except.ok ⟨t, c⟩

/-- `SELECT * FROM notes WHERE id = ?` followed by `fetchone()`:
the first row with the given id, if any. -/
def findById (db : DB) (noteId : Nat) : Option Note :=
  db.rows.find? (fun r => r.id == noteId)

/-- The ordering used by `list_notes`:
`ORDER BY updated_at DESC, id DESC` — `a` comes before (or equals) `b`. -/
def noteLE (a b : Note) : Prop :=
  b.updated_at < a.updated_at ∨ (b.updated_at = a.updated_at ∧ b.id ≤ a.id)

instance : DecidableRel noteLE := fun a b => by
  unfold noteLE; exact inferInstance

instance : IsTotal Note noteLE :=
  ⟨fun a b => by unfold noteLE; omega⟩

instance : IsTrans Note noteLE :=
  ⟨fun a b c => by unfold noteLE; omega⟩

/-- Handler `list_notes` (`GET /notes`):
`SELECT * FROM notes ORDER BY updated_at DESC, id DESC`. -/
def list_notes (db : DB) : List Note :=
  List.insertionSort noteLE db.rows

/-- Handler `get_note` (`GET /notes/{note_id}`): 404 when the id is
absent, otherwise the row. -/
def get_note (db : DB) (noteId : Nat) : Except HTTPError Note :=
  match findById db noteId with
  | none => Except.error ⟨404, "Note not found"⟩
  | some row => Except.ok row

/-- Handler `create_note` (`POST /notes`, after validation): computes
`now`, inserts the row with `created_at = updated_at = now` and
`id = lastrowid = seq + 1`, commits, then re-reads the row by id to
return the canonical stored representation. -/
def create_note (db : DB) (p : NoteCreate) (now : Nat) : DB × Option Note :=
  let newId := db.seq + 1
  let row : Note := ⟨newId, p.title, p.content, now, now⟩
  let db' : DB := ⟨db.rows ++ [row], db.seq + 1⟩
  (db', findById db' newId)

/-- The `POST /notes` endpoint: pydantic validation (422 on failure, no
store mutation), then `create_note` with status 201; a failed re-read
would crash the handler (500). Result: new state, HTTP status, body. -/
def postNotes (db : DB) (raw : RawCreate) (now : Nat) : DB × Nat × Option Note :=
  match parseNoteCreate raw with
  | Except.error e => (db, e.status, none)
  | Except.ok p =>
      match create_note db p now with
      | (db', some n) => (db', 201, some n)
      | (db', none) => (db', 500, none)

/-- Handler `update_note` (`PUT /notes/{note_id}`, after validation):
400 when both fields are `None` (checked before touching the store);
404 when the id is absent; otherwise merges the supplied fields, sets
`updated_at = now` (`UPDATE ... WHERE id = ?`), commits, and re-reads
the row to return it. -/
def update_note (db : DB) (noteId : Nat) (p : NoteUpdate) (now : Nat) :
    Except HTTPError (DB × Note) :=
  if p.title = none ∧ p.content = none then
    Except.error ⟨400, "No fields provided to update"⟩
  else
    match findById db noteId with
    | none => Except.error ⟨404, "Note not found"⟩
    | some row =>
        let new_title := p.title.getD row.title
        let new_content := p.content.getD row.content
        let db' : DB :=
          ⟨db.rows.map (fun r =>
              if r.id == noteId then
                { r with title := new_title, content := new_content, updated_at := now }
              else r),
            db.seq⟩
        match findById db' noteId with
        | none => Except.error ⟨500, "Internal error"⟩
        | some row2 => Except.ok (db', row2)

/-- The `PUT /notes/{id}` endpoint: pydantic validation (422 on
failure), then the `update_note` handler. -/
def putNote (db : DB) (noteId : Nat) (raw : RawUpdate) (now : Nat) :
    Except HTTPError (DB × Note) :=
  match parseNoteUpdate raw with
  | Except.error e => Except.error e
  | Except.ok p => update_note db noteId p now

/-- Handler `delete_note` (`DELETE /notes/{note_id}`): 404 when the id
is absent, otherwise deletes the row (`DELETE ... WHERE id = ?` — the
AUTOINCREMENT sequence is not lowered) and returns an empty 204
response. -/
def delete_note (db : DB) (noteId : Nat) : Except HTTPError (DB × Nat) :=
  match findById db noteId with
  | none => Except.error ⟨404, "Note not found"⟩
  | some _ => Except.ok (⟨db.rows.filter (fun r => !(r.id == noteId)), db.seq⟩, 204)

/-- State after a `PUT`: the new database on success, the old one when
the handler raised (an `HTTPException` rolls the request back before
any mutation on these paths). -/
def applyUpdate (db : DB) (noteId : Nat) (p : NoteUpdate) (now : Nat) : DB :=
  match update_note db noteId p now with
  | Except.ok (db', _) => db'
  | Except.error _ => db

/-- State after a `DELETE`. -/
def applyDelete (db : DB) (noteId : Nat) : DB :=
  match delete_note db noteId with
  | Except.ok (db', _) => db'
  | Except.error _ => db

/-- One mutating request against the service, with the wall-clock
second at which the handler computed `now` (deletes read no clock). -/
inductive Op where
  | create : NoteCreate → Nat → Op
  | update : Nat → NoteUpdate → Nat → Op
  | delete : Nat → Op

/-- The database after one request. -/
def applyOp (db : DB) : Op → DB
  | Op.create p now => (create_note db p now).1
  | Op.update noteId p now => applyUpdate db noteId p now
  | Op.delete noteId => applyDelete db noteId

/-- The database after a sequence of requests. -/
def runOps (db : DB) (ops : List Op) : DB :=
  ops.foldl applyOp db

/-- The wall clock is monotone along a request trace: starting from
`t`, each clock-reading request sees a time at least the previous one. -/
def chrono : Nat → List Op → Bool
  | _, [] => true
  | t, Op.create _ n :: ops => decide (t ≤ n) && chrono n ops
  | t, Op.update _ _ n :: ops => decide (t ≤ n) && chrono n ops
  | t, Op.delete _ :: ops => chrono t ops

/-- Every row's timestamps are consistent and bounded by the clock. -/
def timeOK (t : Nat) (db : DB) : Prop :=
  ∀ r ∈ db.rows, r.created_at ≤ r.updated_at ∧ r.updated_at ≤ t

/-- One request, also recording the id assigned when it is a create. -/
def applyOpTr : DB × List Nat → Op → DB × List Nat
  | (db, ids), Op.create p now => ((create_note db p now).1, ids ++ [db.seq + 1])
  | (db, ids), Op.update noteId p now => (applyUpdate db noteId p now, ids)
  | (db, ids), Op.delete noteId => (applyDelete db noteId, ids)

/-- A request trace from the fresh database, with the chronological
list of all ids ever assigned by creates. -/
def runTrace (ops : List Op) : DB × List Nat :=
  ops.foldl applyOpTr (emptyDB, [])

/-- Invariant of a trace state: the ids assigned so far are strictly
increasing and all bounded by the AUTOINCREMENT sequence value. -/
def idsInv (s : DB × List Nat) : Prop :=
  s.2.Pairwise (· < ·) ∧ ∀ i ∈ s.2, i ≤ s.1.seq

/-- A one-row sample database (note id 1, timestamps 3). -/
def sampleDB : DB := ⟨[⟨1, "T", "C", 3, 3⟩], 1⟩

/-- A three-row sample database with an updated-at tie between ids 1
and 2. -/
def sortDB : DB := ⟨[⟨1, "a", "x", 2, 5⟩, ⟨2, "b", "y", 2, 5⟩, ⟨3, "c", "z", 4, 9⟩], 3⟩

/-- A sample chronological request trace: create, update, delete. -/
def sampleOps : List Op :=
  [Op.create ⟨"a", "b"⟩ 1, Op.update 1 ⟨some "c", none⟩ 2, Op.delete 2]

/-- A sample trace with a delete between two creates. -/
def sampleOpsIds : List Op :=
  [Op.create ⟨"a", "b"⟩ 1, Op.delete 1, Op.create ⟨"c", "d"⟩ 2]

/-! ## Helper lemmas -/

theorem find?_append_of_forall_false {α : Type} (p : α → Bool) (l₁ l₂ : List α)
    (h : ∀ x ∈ l₁, p x = false) : (l₁ ++ l₂).find? p = l₂.find? p := by
  induction l₁ with
  | nil => rfl
  | cons a l ih =>
      have ha : p a = false := h a (List.mem_cons_self a l)
      simp only [List.cons_append, List.find?_cons, ha]
      exact ih (fun x hx => h x (List.mem_cons_of_mem a hx))

theorem find?_map_of_pres {α : Type} (p : α → Bool) (f : α → α)
    (hf : ∀ x, p (f x) = p x) (l : List α) (row : α)
    (h : l.find? p = some row) : (l.map f).find? p = some (f row) := by
  induction l with
  | nil => simp [List.find?] at h
  | cons a l ih =>
      cases hpa : p a with
      | true =>
          rw [List.find?_cons, hpa] at h
          cases h
          simp only [List.map_cons, List.find?_cons, hf, hpa]
      | false =>
          rw [List.find?_cons, hpa] at h
          simp only [List.map_cons, List.find?_cons, hf, hpa]
          exact ih h

theorem find?_filter_not {α : Type} (p : α → Bool) (l : List α) :
    (l.filter (fun x => !(p x))).find? p = none := by
  rw [List.find?_eq_none]
  intro x hx
  rw [List.mem_filter] at hx
  simpa using hx.2

/-! ## Claim theorems -/

/-- C4: an update request supplying neither `title` nor `content` is
rejected by `update_note` with a 400 "No fields provided to update"
error for every database state and every id — the check precedes the
existence lookup and any store mutation, so the store is unchanged. -/
theorem update_note_rejects_empty_update (db : DB) (noteId : Nat) (now : Nat) :
    update_note db noteId ⟨none, none⟩ now =
      Except.error ⟨400, "No fields provided to update"⟩ ∧
    applyUpdate db noteId ⟨none, none⟩ now = db := by
  constructor
  · simp [update_note]
  · simp [applyUpdate, update_note]

/-- C9: an explicit JSON `null` in a `PUT /notes/{id}` body is treated
exactly like omitting the field — the validated payload and hence the
whole endpoint result coincide, so `null` and "absent" are
indistinguishable and no field can be set to null (stored fields are
plain strings). -/
theorem putNote_null_eq_omitted (db : DB) (noteId : Nat) (now : Nat) (t : Jfield) :
    putNote db noteId ⟨t, Jfield.null⟩ now = putNote db noteId ⟨t, Jfield.omitted⟩ now ∧
    putNote db noteId ⟨Jfield.null, t⟩ now = putNote db noteId ⟨Jfield.omitted, t⟩ now := by
  constructor
  · cases t with
    | omitted => rfl
    | null => rfl
    | str s =>
        simp only [putNote, parseNoteUpdate, parseUpdTitle, parseUpdContent]
  · cases t <;> rfl

/-- C6 counterexample: `POST /notes` with an empty title on the empty
database is rejected with HTTP status 422 (pydantic/FastAPI validation
error), not 400 as the claim states. -/
theorem post_empty_title_not_400 :
    postNotes emptyDB ⟨Jfield.str "", Jfield.str "C"⟩ 0 = (emptyDB, 422, none) ∧
    (422 : Nat) ≠ 400 := by
  constructor
  · rfl
  · decide

/-- C6 amended: a create request with an empty title is rejected with
HTTP status 422 (schema validation error) and no row is created — the
database is returned unchanged, so the `listNotes` count is unchanged. -/
theorem post_empty_title_rejected (db : DB) (c : Jfield) (now : Nat) :
    postNotes db ⟨Jfield.str "", c⟩ now = (db, 422, none) ∧
    list_notes (postNotes db ⟨Jfield.str "", c⟩ now).1 = list_notes db := by
  have h : postNotes db ⟨Jfield.str "", c⟩ now = (db, 422, none) := by
    simp [postNotes, parseNoteCreate, parseCreTitle, validTitle]
  exact ⟨h, by rw [h]⟩

/-- C7 counterexample: a `PUT /notes/1` request supplying only an
empty-string title (content absent) against a database in which note 1
exists is rejected by schema validation (`min_length=1` on the title)
with HTTP 422 — it is not accepted. -/
theorem put_empty_title_not_accepted :
    putNote sampleDB 1 ⟨Jfield.str "", Jfield.omitted⟩ 5 =
      Except.error ⟨422, "validation error"⟩ := by
  rfl

/-- C7 amended: the handler-level update validation rejects a request
with a 400 "No fields provided to update" exactly when both parsed
fields are absent; but an update supplying only an empty-string title
never reaches the handler — the pydantic schema (`min_length=1`)
rejects it with a 422 validation error, so it is not accepted. -/
theorem update_validation_asymmetry :
    (∀ (db : DB) (noteId : Nat) (p : NoteUpdate) (now : Nat),
        update_note db noteId p now =
            Except.error ⟨400, "No fields provided to update"⟩ ↔
          p.title = none ∧ p.content = none) ∧
    (∀ (db : DB) (noteId : Nat) (now : Nat),
        putNote db noteId ⟨Jfield.str "", Jfield.omitted⟩ now =
          Except.error ⟨422, "validation error"⟩) := by
  constructor
  · intro db noteId p now
    constructor
    · intro h
      by_contra hne
      rw [update_note, if_neg hne] at h
      split at h
      · simp at h
      · dsimp only at h
        split at h
        · simp at h
        · simp at h
    · intro h
      rw [update_note, if_pos h]
  · intro db noteId now
    simp [putNote, parseNoteUpdate, parseUpdTitle, validTitle]

/-- C7 amended, witnessed at concrete inputs: the empty update payload
is rejected with 400, and the empty-string-title raw request is
rejected with 422. -/
theorem update_validation_asymmetry_witness :
    update_note emptyDB 1 ⟨none, none⟩ 0 =
        Except.error ⟨400, "No fields provided to update"⟩ ∧
    putNote emptyDB 1 ⟨Jfield.str "", Jfield.omitted⟩ 0 =
      Except.error ⟨422, "validation error"⟩ :=
  ⟨(update_validation_asymmetry.1 emptyDB 1 ⟨none, none⟩ 0).mpr ⟨rfl, rfl⟩,
   update_validation_asymmetry.2 emptyDB 1 0⟩

/-- C1: updating an existing note merges the supplied fields — the
handler succeeds, the returned (re-read) note keeps the stored id and
`created_at`, takes each supplied field's value and retains the stored
value of each absent field (so a title-only update leaves the content
unchanged), and `updated_at` is refreshed to `now`. -/
theorem update_note_merges_fields (db : DB) (noteId : Nat) (p : NoteUpdate)
    (now : Nat) (row : Note) (hfind : findById db noteId = some row)
    (hne : ¬(p.title = none ∧ p.content = none)) :
    ∃ db' note, update_note db noteId p now = Except.ok (db', note) ∧
      note.id = row.id ∧
      note.created_at = row.created_at ∧
      note.title = p.title.getD row.title ∧
      note.content = p.content.getD row.content ∧
      note.updated_at = now ∧
      findById db' noteId = some note := by
  have hfind' : db.rows.find? (fun r => r.id == noteId) = some row := hfind
  have hrow : (row.id == noteId) = true :=
    List.find?_some (p := fun r : Note => r.id == noteId) hfind'
  rw [update_note, if_neg hne]
  rw [hfind]
  dsimp only
  have hf : ∀ x : Note,
      (((fun r : Note =>
          if (r.id == noteId) = true then
            { r with title := p.title.getD row.title,
                     content := p.content.getD row.content,
                     updated_at := now }
          else r) x).id == noteId) = (x.id == noteId) := by
    intro x
    by_cases hx : (x.id == noteId) = true
    · simp [hx]
    · simp [hx]
  have hfind2 : findById
      ⟨db.rows.map (fun r =>
          if (r.id == noteId) = true then
            { r with title := p.title.getD row.title,
                     content := p.content.getD row.content,
                     updated_at := now }
          else r),
        db.seq⟩ noteId =
      some { row with title := p.title.getD row.title,
                      content := p.content.getD row.content,
                      updated_at := now } := by
    unfold findById at hfind ⊢
    have := find?_map_of_pres (fun r : Note => r.id == noteId)
      (fun r : Note =>
          if (r.id == noteId) = true then
            { r with title := p.title.getD row.title,
                     content := p.content.getD row.content,
                     updated_at := now }
          else r) hf db.rows row hfind
    rw [this]
    simp only [hrow, if_true]
  rw [hfind2]
  exact ⟨_, _, rfl, rfl, rfl, rfl, rfl, rfl, hfind2⟩

/-- C1 witnessed: a title-only update of the sample note succeeds,
keeps content "C", id 1 and `created_at` 3, sets title "T2" and
`updated_at` 5. -/
theorem update_note_merges_fields_witness :
    ∃ db' note, update_note sampleDB 1 ⟨some "T2", none⟩ 5 = Except.ok (db', note) ∧
      note.id = (Note.mk 1 "T" "C" 3 3).id ∧
      note.created_at = (Note.mk 1 "T" "C" 3 3).created_at ∧
      note.title = (some "T2").getD (Note.mk 1 "T" "C" 3 3).title ∧
      note.content = (none : Option String).getD (Note.mk 1 "T" "C" 3 3).content ∧
      note.updated_at = 5 ∧
      findById db' 1 = some note :=
  update_note_merges_fields sampleDB 1 ⟨some "T2", none⟩ 5 ⟨1, "T", "C", 3, 3⟩
    rfl (by simp)

/-- C5: `deleteNote` answers 404 when the id is absent; otherwise it
removes the row and returns an empty 204 response, after which a get
on the same id answers 404 and a second delete also answers the same
404 "Note not found" (idempotent in effect). -/
theorem delete_note_spec (db : DB) (noteId : Nat) :
    (findById db noteId = none →
        delete_note db noteId = Except.error ⟨404, "Note not found"⟩) ∧
    (∀ r, findById db noteId = some r →
        ∃ db', delete_note db noteId = Except.ok (db', 204) ∧
          db'.rows = db.rows.filter (fun x => !(x.id == noteId)) ∧
          findById db' noteId = none ∧
          get_note db' noteId = Except.error ⟨404, "Note not found"⟩ ∧
          delete_note db' noteId = Except.error ⟨404, "Note not found"⟩) := by
  constructor
  · intro h
    rw [delete_note, h]
  · intro r h
    have hgone : findById
        ⟨db.rows.filter (fun x => !(x.id == noteId)), db.seq⟩ noteId = none := by
      unfold findById
      exact find?_filter_not (fun x : Note => x.id == noteId) db.rows
    refine ⟨_, ?_, rfl, hgone, ?_, ?_⟩
    · rw [delete_note, h]
    · rw [get_note, hgone]
    · rw [delete_note, hgone]

/-- C5 witnessed: deleting note 1 from the sample database succeeds
with 204 and empties the table; the subsequent get and the second
delete on id 1 both answer 404. -/
theorem delete_note_spec_witness :
    ∃ db', delete_note sampleDB 1 = Except.ok (db', 204) ∧
      db'.rows = sampleDB.rows.filter (fun x => !(x.id == 1)) ∧
      findById db' 1 = none ∧
      get_note db' 1 = Except.error ⟨404, "Note not found"⟩ ∧
      delete_note db' 1 = Except.error ⟨404, "Note not found"⟩ :=
  (delete_note_spec sampleDB 1).2 ⟨1, "T", "C", 3, 3⟩ rfl

/-- C2: a valid create request (title non-empty and at most 200
characters, content a string) against a store satisfying the
AUTOINCREMENT invariant inserts one row and answers 201 with the
re-read note: exactly the title and content sent, `created_at` equal
to `updated_at` (both `now`), and a fresh id distinct from every
existing note's id under which the note can immediately be read back. -/
theorem create_note_roundtrip (db : DB) (t c : String) (now : Nat)
    (hinv : SeqInv db) (hv : validTitle t = true) :
    ∃ db' note, postNotes db ⟨Jfield.str t, Jfield.str c⟩ now = (db', 201, some note) ∧
      note.title = t ∧ note.content = c ∧
      note.created_at = now ∧ note.updated_at = now ∧
      (∀ r ∈ db.rows, r.id ≠ note.id) ∧
      findById db' note.id = some note ∧
      db'.rows = db.rows ++ [note] := by
  have hfresh : ∀ x ∈ db.rows, ((fun r : Note => r.id == db.seq + 1) x) = false := by
    intro x hx
    have := hinv x hx
    simp only [beq_eq_false_iff_ne, ne_eq]
    omega
  have hfind : findById ⟨db.rows ++ [⟨db.seq + 1, t, c, now, now⟩], db.seq + 1⟩
      (db.seq + 1) = some ⟨db.seq + 1, t, c, now, now⟩ := by
    unfold findById
    rw [find?_append_of_forall_false _ _ _ hfresh]
    simp [List.find?]
  refine ⟨⟨db.rows ++ [⟨db.seq + 1, t, c, now, now⟩], db.seq + 1⟩,
    ⟨db.seq + 1, t, c, now, now⟩, ?_, rfl, rfl, rfl, rfl, ?_, hfind, rfl⟩
  · rw [postNotes]
    simp only [parseNoteCreate, parseCreTitle, parseCreContent, hv, if_true]
    rw [create_note]
    dsimp only
    rw [hfind]
  · intro r hr
    have := hinv r hr
    show r.id ≠ db.seq + 1
    omega

/-- C2 witnessed: creating ("T", "C") at time 7 on the empty database
answers 201 with id 1, both timestamps 7, and an immediate read-back. -/
theorem create_note_roundtrip_witness :
    ∃ db' note, postNotes emptyDB ⟨Jfield.str "T", Jfield.str "C"⟩ 7 =
        (db', 201, some note) ∧
      note.title = "T" ∧ note.content = "C" ∧
      note.created_at = 7 ∧ note.updated_at = 7 ∧
      (∀ r ∈ emptyDB.rows, r.id ≠ note.id) ∧
      findById db' note.id = some note ∧
      db'.rows = emptyDB.rows ++ [note] :=
  create_note_roundtrip emptyDB "T" "C" 7 (by simp [SeqInv, emptyDB]) rfl

/-- C3: `listNotes` returns a permutation of all stored notes ordered
by `updated_at` descending with ties broken by `id` descending: when
the note at position `j` has a strictly later `updated_at` than the
note at position `i`, or an equal `updated_at` and a strictly higher
id, then `j` comes strictly before `i` in the returned sequence. -/
theorem list_notes_ordering (db : DB) :
    (list_notes db).Perm db.rows ∧
    ∀ i j : Fin (list_notes db).length,
      (((list_notes db).get i).updated_at < ((list_notes db).get j).updated_at ∨
        (((list_notes db).get i).updated_at = ((list_notes db).get j).updated_at ∧
          ((list_notes db).get i).id < ((list_notes db).get j).id)) →
      (j : Nat) < (i : Nat) := by
  constructor
  · exact List.perm_insertionSort noteLE db.rows
  · intro i j hij
    by_contra hge
    have hle : (i : Nat) ≤ (j : Nat) := Nat.le_of_not_lt hge
    rcases Nat.eq_or_lt_of_le hle with heq | hlt
    · have : i = j := Fin.ext heq
      subst this
      omega
    · have hsorted : (list_notes db).Sorted noteLE :=
        List.sorted_insertionSort noteLE db.rows
      have hrel : noteLE ((list_notes db).get i) ((list_notes db).get j) :=
        hsorted.rel_get_of_lt hlt
      unfold noteLE at hrel
      omega

/-- C3 witnessed on the sample three-row database: the listing is a
permutation of the rows and respects the descending
(`updated_at`, `id`) order. -/
theorem list_notes_ordering_witness :
    (list_notes sortDB).Perm sortDB.rows ∧
    ∀ i j : Fin (list_notes sortDB).length,
      (((list_notes sortDB).get i).updated_at < ((list_notes sortDB).get j).updated_at ∨
        (((list_notes sortDB).get i).updated_at = ((list_notes sortDB).get j).updated_at ∧
          ((list_notes sortDB).get i).id < ((list_notes sortDB).get j).id)) →
      (j : Nat) < (i : Nat) :=
  list_notes_ordering sortDB

theorem update_note_result (db : DB) (noteId : Nat) (p : NoteUpdate) (now : Nat) :
    (∃ e, update_note db noteId p now = Except.error e) ∨
    ∃ nt nc row2, update_note db noteId p now =
      Except.ok
        (⟨db.rows.map (fun r =>
            if (r.id == noteId) = true then
              { r with title := nt, content := nc, updated_at := now }
            else r),
          db.seq⟩, row2) := by
  rw [update_note]
  split
  · exact Or.inl ⟨_, rfl⟩
  · split
    · exact Or.inl ⟨_, rfl⟩
    · dsimp only
      split
      · exact Or.inl ⟨_, rfl⟩
      · exact Or.inr ⟨_, _, _, rfl⟩

theorem applyUpdate_cases (db : DB) (noteId : Nat) (p : NoteUpdate) (now : Nat) :
    applyUpdate db noteId p now = db ∨
    ∃ nt nc, applyUpdate db noteId p now =
      ⟨db.rows.map (fun r =>
          if (r.id == noteId) = true then
            { r with title := nt, content := nc, updated_at := now }
          else r),
        db.seq⟩ := by
  unfold applyUpdate
  rcases update_note_result db noteId p now with ⟨e, he⟩ | ⟨nt, nc, row2, he⟩
  · rw [he]
    exact Or.inl rfl
  · rw [he]
    exact Or.inr ⟨nt, nc, rfl⟩

theorem applyDelete_cases (db : DB) (noteId : Nat) :
    applyDelete db noteId = db ∨
    applyDelete db noteId = ⟨db.rows.filter (fun r => !(r.id == noteId)), db.seq⟩ := by
  unfold applyDelete
  cases hfind : findById db noteId with
  | none =>
      rw [delete_note, hfind]
      exact Or.inl rfl
  | some row =>
      rw [delete_note, hfind]
      exact Or.inr rfl

theorem seq_le_applyOp (db : DB) (op : Op) : db.seq ≤ (applyOp db op).seq := by
  cases op with
  | create p now => exact Nat.le_succ db.seq
  | update noteId p now =>
      show db.seq ≤ (applyUpdate db noteId p now).seq
      rcases applyUpdate_cases db noteId p now with h | ⟨nt, nc, h⟩ <;>
        rw [h]
  | delete noteId =>
      show db.seq ≤ (applyDelete db noteId).seq
      rcases applyDelete_cases db noteId with h | h <;> rw [h]

theorem timeOK_mono {t t' : Nat} (h : t ≤ t') {db : DB} (H : timeOK t db) :
    timeOK t' db :=
  fun r hr => ⟨(H r hr).1, Nat.le_trans (H r hr).2 h⟩

theorem timeOK_create (db : DB) (p : NoteCreate) (now t : Nat)
    (h : timeOK t db) (htn : t ≤ now) : timeOK now (create_note db p now).1 := by
  intro r hr
  have : r ∈ db.rows ++ [⟨db.seq + 1, p.title, p.content, now, now⟩] := hr
  rw [List.mem_append] at this
  rcases this with hmem | hmem
  · exact ⟨(h r hmem).1, Nat.le_trans (h r hmem).2 htn⟩
  · rw [List.mem_singleton] at hmem
    subst hmem
    exact ⟨Nat.le_refl now, Nat.le_refl now⟩

theorem timeOK_update (db : DB) (noteId : Nat) (p : NoteUpdate) (now t : Nat)
    (h : timeOK t db) (htn : t ≤ now) :
    timeOK now (applyUpdate db noteId p now) := by
  rcases applyUpdate_cases db noteId p now with hc | ⟨nt, nc, hc⟩ <;> rw [hc]
  · exact timeOK_mono htn h
  · intro r hr
    rw [List.mem_map] at hr
    obtain ⟨x, hx, rfl⟩ := hr
    have hxo := h x hx
    cases hxid : (x.id == noteId) with
    | false =>
        rw [if_neg (by simp)]
        exact ⟨hxo.1, Nat.le_trans hxo.2 htn⟩
    | true =>
        rw [if_pos rfl]
        exact ⟨Nat.le_trans (Nat.le_trans hxo.1 hxo.2) htn, Nat.le_refl now⟩

theorem timeOK_delete (db : DB) (noteId : Nat) (t : Nat)
    (h : timeOK t db) : timeOK t (applyDelete db noteId) := by
  rcases applyDelete_cases db noteId with hc | hc <;> rw [hc]
  · exact h
  · intro r hr
    rw [List.mem_filter] at hr
    exact h r hr.1

theorem timeOK_runOps (ops : List Op) :
    ∀ (t : Nat) (db : DB), chrono t ops = true → timeOK t db →
      ∃ u, timeOK u (runOps db ops) := by
  induction ops with
  | nil => intro t db _ h; exact ⟨t, h⟩
  | cons op ops ih =>
      intro t db hch h
      cases op with
      | create p n =>
          rw [chrono, Bool.and_eq_true, decide_eq_true_eq] at hch
          exact ih n _ hch.2 (timeOK_create db p n t h hch.1)
      | update noteId p n =>
          rw [chrono, Bool.and_eq_true, decide_eq_true_eq] at hch
          exact ih n _ hch.2 (timeOK_update db noteId p n t h hch.1)
      | delete noteId =>
          rw [chrono] at hch
          exact ih t _ hch (timeOK_delete db noteId t h)

/-- C8: in every state reachable from the fresh database by a
chronologically ordered sequence of create, update and delete
requests, every stored note satisfies `updated_at >= created_at` —
creation sets both timestamps to the same `now` and every successful
update refreshes `updated_at` to the (later) current time while
leaving `created_at` unchanged. -/
theorem timestamps_consistent (ops : List Op) (t0 : Nat)
    (h : chrono t0 ops = true) :
    ∀ r ∈ (runOps emptyDB ops).rows, r.created_at ≤ r.updated_at := by
  have hstart : timeOK t0 emptyDB := by
    intro r hr
    simp [emptyDB] at hr
  obtain ⟨u, hu⟩ := timeOK_runOps ops t0 emptyDB h hstart
  exact fun r hr => (hu r hr).1

/-- C8 witnessed on a concrete chronological trace (create at 1,
title-only update at 2, delete of a missing id): every remaining row
satisfies `updated_at >= created_at`. -/
theorem timestamps_consistent_witness :
    chrono 0 sampleOps = true ∧
    ∀ r ∈ (runOps emptyDB sampleOps).rows, r.created_at ≤ r.updated_at :=
  ⟨rfl, timestamps_consistent sampleOps 0 rfl⟩

theorem idsInv_step (s : DB × List Nat) (op : Op) (h : idsInv s) :
    idsInv (applyOpTr s op) := by
  obtain ⟨db, ids⟩ := s
  cases op with
  | create p now =>
      constructor
      · show (ids ++ [db.seq + 1]).Pairwise (· < ·)
        rw [List.pairwise_append]
        refine ⟨h.1, List.pairwise_singleton _ _, ?_⟩
        intro a ha b hb
        rw [List.mem_singleton] at hb
        subst hb
        exact Nat.lt_succ_of_le (h.2 a ha)
      · intro i hi
        show i ≤ db.seq + 1
        replace hi : i ∈ ids ++ [db.seq + 1] := hi
        rw [List.mem_append] at hi
        rcases hi with hi | hi
        · exact Nat.le_succ_of_le (h.2 i hi)
        · rw [List.mem_singleton] at hi
          exact Nat.le_of_eq hi
  | update noteId p now =>
      refine ⟨h.1, fun i hi => Nat.le_trans (h.2 i hi) ?_⟩
      exact seq_le_applyOp db (Op.update noteId p now)
  | delete noteId =>
      refine ⟨h.1, fun i hi => Nat.le_trans (h.2 i hi) ?_⟩
      exact seq_le_applyOp db (Op.delete noteId)

theorem idsInv_fold (ops : List Op) :
    ∀ s, idsInv s → idsInv (ops.foldl applyOpTr s) := by
  induction ops with
  | nil => intro s h; exact h
  | cons op ops ih => intro s h; exact ih _ (idsInv_step s op h)

/-- C10: note ids are assigned in strictly increasing order and never
reused — along every sequence of requests from the fresh database, the
chronological list of ids handed out by creates is strictly
increasing, and every id ever assigned is smaller than the id the next
create would assign (`seq + 1`), even after deletions (AUTOINCREMENT
keeps the sequence value when rows are removed). -/
theorem ids_strictly_increasing (ops : List Op) :
    (runTrace ops).2.Pairwise (· < ·) ∧
    ∀ i ∈ (runTrace ops).2, i < (runTrace ops).1.seq + 1 := by
  have h := idsInv_fold ops (emptyDB, [])
    ⟨List.Pairwise.nil, by intro i hi; simp at hi⟩
  exact ⟨h.1, fun i hi => Nat.lt_succ_of_le (h.2 i hi)⟩

/-- C10 witnessed on a trace that deletes the first note before the
second create: the assigned ids are still strictly increasing and all
below the next id to be assigned. -/
theorem ids_strictly_increasing_witness :
    (runTrace sampleOpsIds).2.Pairwise (· < ·) ∧
    ∀ i ∈ (runTrace sampleOpsIds).2, i < (runTrace sampleOpsIds).1.seq + 1 :=
  ids_strictly_increasing sampleOpsIds
